import Mathlib

set_option maxRecDepth 100000

/-!
Verification of the conformance-test compilation and validation engine of the
`spectool` repository, against a shallow Lean embedding of its Rust source.

The embedding covers:
* `src/wdl.rs` — shallow workflow/task declaration scanning and `single_target`;
* `src/conformance/test.rs` — the conformance-test extraction regex (modelled
  as an explicit backtracking matcher for that one pattern), test construction,
  and target inference/validation;
* `src/conformance/test/config.rs` — the parsed test configuration;
* `src/conformance/test/validation.rs` — output filtering and structural JSON
  comparison;
* `src/command/test.rs` — the per-test execution/evaluation decision logic.

External collaborators (the filesystem, process spawning, `serde_json` string
parsing and the `jq` selector) are modelled as explicit parameters, so every
embedded function is a pure, executable Lean definition.
-/

namespace Spectool

/-! ## JSON values (`serde_json::Value`)

Numbers are modelled as exact rationals: every JSON number that `serde_json`
can represent (i64/u64/f64, never NaN or infinity) denotes a rational, and the
validator's f64 arithmetic is modelled exactly over `ℚ`.  Objects are modelled
as association lists of distinct keys in iteration order. -/

inductive Json where
  | null
  | bool (b : Bool)
  | num (q : ℚ)
  | str (s : String)
  | arr (items : List Json)
  | obj (fields : List (String × Json))

/-- Models `Value::as_object`: `some` exactly on JSON objects. -/
def Json.asObject : Json → Option (List (String × Json))
  | .obj fields => some fields
  | _ => none

/-! ## Output validation (`src/conformance/test/validation.rs`)

The filesystem consulted by `normalize_path` is modelled as a predicate
`fs : String → Bool` telling which strings are extant paths. -/

/-- Joins a path and a key as the Rust code does: the bare key at the root,
`path.key` below it. -/
def joinPath (path key : String) : String :=
  if path = "" then key else path ++ "." ++ key

mutual

/-- Models `filter_outputs_recursive`: recursively drops object entries whose
bare key or full dotted path occurs in `exclude`; arrays are recursed into
without changing the path. -/
def filter_outputs_recursive (value : Json) (exclude : List String) (current_path : String) :
    Json :=
  match value with
  | .obj fields => .obj (filterFields fields exclude current_path)
  | .arr items => .arr (filterItems items exclude current_path)
  | other => other

/-- Entry-wise filtering of an object's fields (the `filter_map` in
`filter_outputs_recursive`). -/
def filterFields (fields : List (String × Json)) (exclude : List String) (current_path : String) :
    List (String × Json) :=
  match fields with
  | [] => []
  | (key, val) :: rest =>
    let full_path := joinPath current_path key
    (if exclude.contains key || exclude.contains full_path then []
     else [(key, filter_outputs_recursive val exclude full_path)]) ++
      filterFields rest exclude current_path

/-- Element-wise filtering of an array (the `map` in
`filter_outputs_recursive`). -/
def filterItems (items : List Json) (exclude : List String) (current_path : String) : List Json :=
  match items with
  | [] => []
  | val :: rest =>
    filter_outputs_recursive val exclude current_path :: filterItems rest exclude current_path

end

/-- Models `filter_outputs`: filtering starts with the empty path. -/
def filter_outputs (value : Json) (exclude : List String) : Json :=
  filter_outputs_recursive value exclude ""

/-- Models `f64::EPSILON = 2^-52`, the tolerance of the number comparison. -/
def f64Epsilon : ℚ := 1 / 2 ^ 52

/-- Splits a character list on a separator character, keeping empty pieces,
as Rust `str::split` does. -/
def splitChar (sep : Char) : List Char → List (List Char)
  | [] => [[]]
  | c :: rest =>
    let r := splitChar sep rest
    if c = sep then [] :: r
    else
      match r with
      | h :: t => (c :: h) :: t
      | [] => [[c]]

/-- Models `Path::file_name` for the strings the validator sees: the last
path component after dropping empty and `.` components, unless it is `..`. -/
def path_file_name (s : String) : Option String :=
  let comps := ((splitChar '/' s.data).map List.asString).filter (fun c => c ≠ "" && c ≠ ".")
  match comps.getLast? with
  | none => none
  | some c => if c = ".." then none else some c

/-- Models `normalize_path`: a string naming an extant path (per `fs`) is
reduced to its final component; all other strings are kept verbatim. -/
def normalize_path (fs : String → Bool) (s : String) : String :=
  if fs s then
    match path_file_name s with
    | some name => name
    | none => s
  else s

/-- Returns the human-readable type name used in mismatch diagnostics
(`type_name` in the Rust source). -/
def typeName : Json → String
  | .null => "null"
  | .bool _ => "boolean"
  | .num _ => "number"
  | .str _ => "string"
  | .arr _ => "array"
  | .obj _ => "object"

mutual

/-- Models `compare_json`: deep, type-strict comparison producing the Rust
code's diagnostic message on the first mismatch. -/
def compare_json (fs : String → Bool) (expected actual : Json) (path : String) :
    Except String Unit :=
  match expected, actual with
  | .null, .null => .ok ()
  | .bool e, .bool a =>
    if e = a then .ok ()
    else .error ("boolean mismatch at `" ++ path ++ "`: expected " ++ toString e ++
      ", got " ++ toString a)
  | .num e, .num a =>
    if |e - a| < f64Epsilon then .ok ()
    else .error ("number mismatch at `" ++ path ++ "`: expected " ++ toString e ++
      ", got " ++ toString a)
  | .str e, .str a =>
    if normalize_path fs e = normalize_path fs a then .ok ()
    else .error ("string mismatch at `" ++ path ++ "`: expected \"" ++ e ++
      "\", got \"" ++ a ++ "\"")
  | .arr e, .arr a =>
    if e.length ≠ a.length then
      .error ("array length mismatch at `" ++ path ++ "`: expected " ++
        toString e.length ++ " elements, got " ++ toString a.length ++ " elements")
    else compareItems fs e a 0 path
  | .obj e, .obj a =>
    match e.find? (fun kv => (a.lookup kv.1).isNone) with
    | some kv => .error ("missing key in actual output: `" ++ joinPath path kv.1 ++ "`")
    | none =>
      match a.find? (fun kv => (e.lookup kv.1).isNone) with
      | some kv => .error ("unexpected key in actual output: `" ++ joinPath path kv.1 ++ "`")
      | none => compareFields fs e a path
  | e, a =>
    .error ("type mismatch at `" ++ path ++ "`: expected " ++ typeName e ++
      ", got " ++ typeName a)

/-- Positional comparison of array elements (the indexed loop in
`compare_json`), threading the element index for the diagnostic path. -/
def compareItems (fs : String → Bool) (e a : List Json) (i : Nat) (path : String) :
    Except String Unit :=
  match e, a with
  | e_val :: e_rest, a_val :: a_rest =>
    let item_path := if path = "" then "[" ++ toString i ++ "]"
      else path ++ "[" ++ toString i ++ "]"
    match compare_json fs e_val a_val item_path with
    | .ok () => compareItems fs e_rest a_rest (i + 1) path
    | .error m => .error m
  | _, _ => .ok ()

/-- Key-wise comparison of the expected object's entries against the actual
object (the final loop in `compare_json`); the lookup models the Rust map
indexing `a[key]`, which the preceding key checks have made infallible. -/
def compareFields (fs : String → Bool) (e : List (String × Json)) (a : List (String × Json))
    (path : String) : Except String Unit :=
  match e with
  | [] => .ok ()
  | (key, e_val) :: rest =>
    match a.lookup key with
    | some a_val =>
      match compare_json fs e_val a_val (joinPath path key) with
      | .ok () => compareFields fs rest a path
      | .error m => .error m
    | none => .error ("missing key in actual output: `" ++ joinPath path key ++ "`")

end

/-- Models `validate_outputs`: both sides are filtered through the exclusion
list independently, then compared starting from the empty path. -/
def validate_outputs (fs : String → Bool) (expected actual : Json) (exclude : List String) :
    Except String Unit :=
  compare_json fs (filter_outputs expected exclude) (filter_outputs actual exclude) ""

mutual

/-- Well-formedness of a JSON value as produced by `serde_json`: every object
has pairwise-distinct keys (`serde_json::Map` can hold a key only once). -/
def jsonWF : Json → Bool
  | .obj fields => decide ((fields.map Prod.fst).Nodup) && fieldsWF fields
  | .arr items => itemsWF items
  | _ => true

/-- Well-formedness of every value of an object's fields. -/
def fieldsWF : List (String × Json) → Bool
  | [] => true
  | (_, val) :: rest => jsonWF val && fieldsWF rest

/-- Well-formedness of every element of an array. -/
def itemsWF : List Json → Bool
  | [] => true
  | val :: rest => jsonWF val && itemsWF rest

end

/-! ## WDL declaration scanning (`src/wdl.rs`)

The two regexes `(?m)^\s*workflow\s+(\w+)\s*\x7b` and
`(?m)^\s*task\s+(\w+)\s*\x7b` are modelled as an explicit scan over the
character list: at every line start (position 0 or just after a newline) the
pattern `\s* keyword \s+ name \s* openbrace` is attempted, `\s` spanning
newlines exactly as in the regex; matches are collected left to right and
non-overlapping, the scan resuming after the consumed span. -/

/-- Models the regex class `\s` (restricted to its ASCII members, the only
ones the fixture corpus uses). -/
def isRustSpace (c : Char) : Bool :=
  c = ' ' || c = '\t' || c = '\n' || c = '\r' || c = '\x0b' || c = '\x0c'

/-- Models the regex class `\w` (restricted to its ASCII members). -/
def isWordChar (c : Char) : Bool :=
  c.isAlphanum || c = '_'

/-- Strips a literal (case-sensitive) from the front of the input, returning
the remainder on success. -/
def dropLit : List Char → List Char → Option (List Char)
  | [], s => some s
  | _ :: _, [] => none
  | c :: cs, d :: ds => if d = c then dropLit cs ds else none

/-- Attempts the declaration pattern `\s* kw \s+ (\w+) \s* openbrace` at one
anchor position, returning the captured name and the input remaining after
the opening brace. -/
def matchDeclAt (kw : List Char) (s : List Char) : Option (String × List Char) :=
  match dropLit kw (s.dropWhile isRustSpace) with
  | none => none
  | some s2 =>
    match s2 with
    | [] => none
    | c :: s3 =>
      if isRustSpace c then
        let s4 := s3.dropWhile isRustSpace
        match s4.takeWhile isWordChar with
        | [] => none
        | name =>
          match (s4.drop name.length).dropWhile isRustSpace with
          | '\x7b' :: s6 => some (name.asString, s6)
          | _ => none
      else none

/-- Scans the whole input for declaration matches: `atStart` tracks whether
the current position is a line start (a multi-line `^` anchor), and `skip`
counts characters still inside the previously consumed match (matches are
non-overlapping, as with `captures_iter`). -/
def scanDecls (kw : List Char) : List Char → Bool → Nat → List String
  | [], _, _ => []
  | c :: rest, atStart, skip =>
    match skip with
    | n + 1 => scanDecls kw rest (c = '\n') n
    | 0 =>
      if atStart then
        match matchDeclAt kw (c :: rest) with
        | some (name, after) =>
          name :: scanDecls kw rest (c = '\n') ((c :: rest).length - after.length - 1)
        | none => scanDecls kw rest (c = '\n') 0
      else scanDecls kw rest (c = '\n') 0

/-- A target to execute in a WDL file (`wdl::Target`). -/
inductive Target where
  | Task (name : String)
  | Workflow (name : String)
  deriving DecidableEq

/-- Renders a target the way the Rust `Debug` derive does (used inside the
conflicting-inference diagnostic). -/
def targetDebug : Target → String
  | .Task name => "Task(\"" ++ name ++ "\")"
  | .Workflow name => "Workflow(\"" ++ name ++ "\")"

/-- The declarations found in a WDL file (`wdl::WdlDeclarations`). -/
structure WdlDeclarations where
  workflow : Option String
  tasks : List String
  deriving DecidableEq

/-- Models `WdlDeclarations::single_target`: a workflow always dominates;
otherwise a unique task; otherwise nothing. -/
def WdlDeclarations.single_target : WdlDeclarations → Option Target
  | ⟨some wf, _⟩ => some (.Workflow wf)
  | ⟨none, [task]⟩ => some (.Task task)
  | _ => none

/-- Models `parse_wdl_declarations`: the first workflow match governs, all
task matches are collected in order.  The Rust function returns `Result` but
has no failure path, so it is modelled as total. -/
def parse_wdl_declarations (source : String) : WdlDeclarations :=
  { workflow := (scanDecls "workflow".data source.data true 0).head?
    tasks := scanDecls "task".data source.data true 0 }

/-! ## Test configuration (`src/conformance/test/config.rs`) -/

/-- A tag associated with a conformance test. -/
inductive Tag where
  | Deprecated
  deriving DecidableEq

/-- A capability required by a conformance test. -/
inductive Capability where
  | Cpu
  | Memory
  | Gpu
  | Disks
  | AllowNestedInputs
  deriving DecidableEq

/-- The expected return code(s) for a conformance test (`ReturnCode`). -/
inductive ReturnCode where
  | Any
  | Single (code : Int)
  | Multiple (codes : List Int)
  deriving DecidableEq

/-- A parsed test configuration (`Config`), with the serde defaults. -/
structure Config where
  target : Option String := none
  ignore : Bool := false
  fail : Bool := false
  return_code : ReturnCode := .Any
  exclude_outputs : List String := []
  capabilities : List Capability := []
  tags : List Tag := []
  deriving DecidableEq

/-! ## Conformance tests (`src/conformance/test.rs`) -/

/-- A conformance test (`Test`); `PathBuf` is modelled as a string. -/
structure Test where
  path : Option String
  file_name : String
  src : String
  input : Option Json
  output : Option Json
  config : Config
  inferred_target : Option Target

/-- Models `key.split(on-dot).next()`: the part of the key before its first
dot (the whole key when it has no dot). -/
def firstDotSegment (key : String) : String :=
  (key.data.takeWhile (fun c => c ≠ '.')).asString

/-- Diagnostic emitted when the single input-key head matches no declaration. -/
def msgNoMatch (p name : String) : String :=
  "input prefix `" ++ p ++ "` does not match any workflow or task in WDL (test: `" ++
    name ++ "`)"

/-- Diagnostic emitted when the input keys have several distinct heads. -/
def msgAmbiguous (name : String) : String :=
  "ambiguous input prefixes (test: `" ++ name ++ "`)"

/-- Diagnostic for an explicit config target alongside a structural target. -/
def msgConflictWdl (name : String) : String :=
  "target should not be specified in config, as it can be inferred from the WDL directly (test: `" ++
    name ++ "`)"

/-- Diagnostic for an explicit config target alongside an input-inferred
target. -/
def msgConflictInput (name : String) : String :=
  "target should not be specified in config, as it can be inferred from the input JSON directly (test: `" ++
    name ++ "`)"

/-- Diagnostic for a structural target disagreeing with the input-inferred
target. -/
def msgConflictDisagree (single input : Target) (name : String) : String :=
  "conflicting target inference: WDL structure suggests `" ++ targetDebug single ++
    "` but input suggests `" ++ targetDebug input ++ "` (test: `" ++ name ++ "`)"

/-- Diagnostic when several tasks need an explicit config target. -/
def msgTargetRequired (name : String) : String :=
  "target required in config: cannot infer which task to run (test: `" ++ name ++ "`)"

/-- Diagnostic when the explicit config target names no declared task. -/
def msgNotFound (target name : String) : String :=
  "target `" ++ target ++ "` not found in tasks (test: `" ++ name ++ "`)"

/-- Diagnostic when the source declares neither workflow nor task. -/
def msgNoDecl (name : String) : String :=
  "no workflow or task found in WDL source (test: `" ++ name ++ "`)"

/-- Diagnostic of the unreachable final match arm. -/
def msgUnexpected (name : String) : String :=
  "unexpected target inference state (test: `" ++ name ++ "`)"

/-- Models `Test::infer_target_from_input`: collects the distinct heads of the
input-object keys (a `HashSet`, modelled by `dedup`) and resolves a single
head against the declarations. -/
def Test.infer_target_from_input (t : Test) (decls : WdlDeclarations) :
    Except String (Option Target) :=
  match t.input with
  | none => .ok none
  | some input =>
    match input.asObject with
    | none => .ok none
    | some obj =>
      if obj.isEmpty then .ok none
      else
        match (obj.map (fun kv => firstDotSegment kv.1)).dedup with
        | [p] =>
          if decls.workflow = some p then .ok (some (.Workflow p))
          else if decls.tasks.contains p then .ok (some (.Task p))
          else .error (msgNoMatch p t.file_name)
        | _ :: _ :: _ => .error (msgAmbiguous t.file_name)
        | [] => .ok none

/-- Models `Test::infer_and_validate_target` as explicit state passing: the
returned test is the receiver after the call (`inferred_target` is assigned
only in the `Ok` arms; every `bail!` leaves the receiver untouched). -/
def Test.infer_and_validate_target (t : Test) : Except String Unit × Test :=
  let decls := parse_wdl_declarations t.src
  let single_target := decls.single_target
  match t.infer_target_from_input decls with
  | .error e => (.error e, t)
  | .ok input_inferred =>
    let config_target := t.config.target
    match single_target, input_inferred, config_target with
    | some _, _, some _ => (.error (msgConflictWdl t.file_name), t)
    | none, some _, some _ => (.error (msgConflictInput t.file_name), t)
    | some target, none, none => (.ok (), { t with inferred_target := some target })
    | none, some target, none => (.ok (), { t with inferred_target := some target })
    | some single, some input, none =>
      if single = input then (.ok (), { t with inferred_target := some single })
      else (.error (msgConflictDisagree single input t.file_name), t)
    | none, none, none =>
      if ¬ decls.tasks.isEmpty then (.error (msgTargetRequired t.file_name), t)
      else if decls.tasks.isEmpty && decls.workflow.isNone then
        (.error (msgNoDecl t.file_name), t)
      else (.error (msgUnexpected t.file_name), t)
    | none, none, some target =>
      if ¬ decls.tasks.isEmpty then
        if ¬ decls.tasks.contains target then (.error (msgNotFound target t.file_name), t)
        else (.ok (), { t with inferred_target := some (Target.Task target) })
      else if decls.tasks.isEmpty && decls.workflow.isNone then
        (.error (msgNoDecl t.file_name), t)
      else (.error (msgUnexpected t.file_name), t)

/-! ## Conformance-test extraction (`CONFORMANCE_TEST_REGEX`)

The single extraction regex

`(?is) <details>\s*<summary>\s*Example: (.+?)\s*(wdl fence)(.+?)(fence)\s*
</summary>\s*(?:<p>\s*(?:Example input:\s*(json fence)(.*?)(fence))?\s*
(?:Example output:\s*(json fence)(.*?)(fence))?\s*
(?:Test config:\s*(json fence)(.*?)(fence))?\s*</p>\s*)?</details>`

is modelled as an explicit backtracking matcher for exactly this pattern,
with the regex crate's leftmost-first (Perl-style) semantics: literals are
case-insensitive, `.` matches newlines, lazy quantifiers prefer the shortest
capture, optional groups prefer to match, and on failure the continuation
backtracks.  Continuations are passed explicitly so backtracking extends
through the entire remainder of the pattern. -/

/-- A capture set of the extraction regex.  Groups 3–5 (input/output/config
bodies) are optional; groups 1 (name) and 2 (source) are filled whenever the
pattern matches, since they sit outside any optional group. -/
structure RawTest where
  g1 : Option String
  g2 : Option String
  g3 : Option String
  g4 : Option String
  g5 : Option String
  deriving DecidableEq

/-- Strips a literal from the front of the input case-insensitively (the
regex is compiled with the `i` flag), returning the remainder on success. -/
def dropLitCI : List Char → List Char → Option (List Char)
  | [], s => some s
  | _ :: _, [] => none
  | c :: cs, d :: ds => if d.toLower = c.toLower then dropLitCI cs ds else none

/-- Matches the closing `</details>` literal and packages the captures. -/
def endDetails (g1 g2 : String) (g3 g4 g5 : Option String) (s : List Char) :
    Option (RawTest × List Char) :=
  (dropLitCI "</details>".data s).map fun rest =>
    ({ g1 := some g1, g2 := some g2, g3 := g3, g4 := g4, g5 := g5 }, rest)

/-- Lazy `(.*?)` capture: tries the continuation after consuming zero
characters first, extending the capture one character at a time on failure
(`acc` holds the capture so far, reversed). -/
def lazyStar (k : String → List Char → Option (RawTest × List Char)) :
    List Char → List Char → Option (RawTest × List Char)
  | acc, [] => k acc.reverse.asString []
  | acc, c :: rest =>
    match k acc.reverse.asString (c :: rest) with
    | some r => some r
    | none => lazyStar k (c :: acc) rest

/-- Lazy `(.+?)` capture: like `lazyStar` but consuming at least one
character. -/
def lazyPlus (k : String → List Char → Option (RawTest × List Char)) (s : List Char) :
    Option (RawTest × List Char) :=
  match s with
  | [] => none
  | c :: rest => lazyStar k [c] rest

/-- Matches one optional labelled JSON block
`(?:LABEL\s*(json fence)(.*?)(fence))?\s*`: the group is attempted first
(with the full continuation, so a failure deeper in the pattern backtracks
here), and skipped when no attempt succeeds. -/
def optGroup (label : List Char) (s : List Char)
    (k : Option String → List Char → Option (RawTest × List Char)) :
    Option (RawTest × List Char) :=
  match
    match dropLitCI label s with
    | some s1 =>
      match dropLitCI "```json".data (s1.dropWhile isRustSpace) with
      | some s2 =>
        lazyStar (fun cap s3 =>
          match dropLitCI "```".data s3 with
          | some s4 => k (some cap) (s4.dropWhile isRustSpace)
          | none => none) [] s2
      | none => none
    | none => none
  with
  | some r => some r
  | none => k none s

/-- Matches the optional `<p> ... </p>` block holding the three labelled
JSON sub-blocks, ending with `</details>`. -/
def pBlock (g1 g2 : String) (s : List Char) : Option (RawTest × List Char) :=
  match dropLitCI "<p>".data s with
  | none => none
  | some s1 =>
    optGroup "Example input:".data (s1.dropWhile isRustSpace) (fun g3 s2 =>
      optGroup "Example output:".data s2 (fun g4 s3 =>
        optGroup "Test config:".data s3 (fun g5 s4 =>
          match dropLitCI "</p>".data s4 with
          | some s5 => endDetails g1 g2 g3 g4 g5 (s5.dropWhile isRustSpace)
          | none => none)))

/-- After `</summary>\s*`: the `<p>` block is optional and preferred, the
closing `</details>` follows either way. -/
def afterSummary (g1 g2 : String) (s : List Char) : Option (RawTest × List Char) :=
  match pBlock g1 g2 s with
  | some r => some r
  | none => endDetails g1 g2 none none none s

/-- Attempts the whole extraction pattern at one position, returning the
captures and the input remaining after the match. -/
def matchAt (s : List Char) : Option (RawTest × List Char) :=
  match dropLitCI "<details>".data s with
  | none => none
  | some s1 =>
    match dropLitCI "<summary>".data (s1.dropWhile isRustSpace) with
    | none => none
    | some s2 =>
      match dropLitCI "Example: ".data (s2.dropWhile isRustSpace) with
      | none => none
      | some s3 =>
        lazyPlus (fun g1 s4 =>
          match dropLitCI "```wdl".data (s4.dropWhile isRustSpace) with
          | none => none
          | some s5 =>
            lazyPlus (fun g2 s6 =>
              match dropLitCI "```".data s6 with
              | none => none
              | some s7 =>
                match dropLitCI "</summary>".data (s7.dropWhile isRustSpace) with
                | none => none
                | some s8 => afterSummary g1 g2 (s8.dropWhile isRustSpace))
              s5)
          s3

/-- Models `captures_iter`: successive leftmost non-overlapping matches.
`skip` counts characters still inside the previously consumed match. -/
def scanIter : List Char → Nat → List RawTest
  | [], _ => []
  | c :: rest, skip =>
    match skip with
    | n + 1 => scanIter rest n
    | 0 =>
      match matchAt (c :: rest) with
      | some (r, after) => r :: scanIter rest ((c :: rest).length - after.length - 1)
      | none => scanIter rest 0

/-- Extracts every conformance-test capture set from the markdown text, in
document order. -/
def extractTests (contents : String) : List RawTest :=
  scanIter contents.data 0

/-! ## Test construction (`build_conformance_test` and helpers)

String-to-JSON parsing (`serde_json`) is an external collaborator; it is
modelled by the parameters `parseJson` (`Value::from_str`, failures swallowed
by `.ok()`) and `parseConfig` (`serde_json::from_str::<Config>` with its
closed schema, failures propagated). -/

/-- Models `required_string`: a required capture group, failing with the
malformed-fixture diagnostic when the group is absent.  (The Rust message
also embeds the whole matched text, which is immaterial here.) -/
def required_string (g : Option String) (name : String) : Except String String :=
  match g with
  | some v => .ok v
  | none => .error ("unable to parse " ++ name ++ " from test")

/-- Models `optional_json_group`: an optional capture parsed as JSON, with
parse failures silently collapsed to `none` by `.ok()`. -/
def optional_json_group (parseJson : String → Option Json) (g : Option String) : Option Json :=
  g.bind fun v => parseJson v

/-- Models `optional_group::<Config>`: an optional capture deserialized
against the closed config schema, with parse failures propagated (wrapped in
the `parsing configuration` context). -/
def optional_config_group (parseConfig : String → Except String Config) (g : Option String) :
    Except String (Option Config) :=
  match g with
  | none => .ok none
  | some v =>
    match parseConfig v with
    | .ok c => .ok (some c)
    | .error e => .error ("parsing configuration: " ++ e)

/-- Models `build_conformance_test`. -/
def build_conformance_test (parseJson : String → Option Json)
    (parseConfig : String → Except String Config) (caps : RawTest) : Except String Test := do
  let file_name ← required_string caps.g1 "filename"
  let src ← required_string caps.g2 "source"
  let input := optional_json_group parseJson caps.g3
  let output := optional_json_group parseJson caps.g4
  let cfgOpt ← optional_config_group parseConfig caps.g5
  let config := cfgOpt.getD {}
  .ok
    { path := none, file_name := file_name, src := src, input := input, output := output,
      config := config, inferred_target := none }

/-- Models `Tests::compile`: every matched region is built into a test, the
first failure aborting the whole compilation. -/
def Tests.compile (parseJson : String → Option Json)
    (parseConfig : String → Except String Config) (contents : String) :
    Except String (List Test) :=
  (extractTests contents).mapM (build_conformance_test parseJson parseConfig)

/-! ## Test execution and evaluation (`src/command/test.rs`)

Process spawning and the filesystem are external collaborators, modelled as
explicit outcome parameters: `spawn` is the result of running the external
command (`exit_code` is `status.code().unwrap_or(-1)`), `writeStdout` the
outcome of writing the captured stdout to `outputs.json` under
`redirect_stdout`, and `readOutputs` the later attempt to read
`outputs.json`. -/

/-- The reason a test was skipped (`SkipReason`). -/
inductive SkipReason where
  | Ignored
  | MissingCapabilities (caps : List Capability)
  deriving DecidableEq

/-- The reason a test failed (`FailureReason`). -/
inductive FailureReason where
  | ReturnCodeMismatch (expected : ReturnCode) (actual : Int)
  | OutputMismatch (details : String)
  | ExecutionError (msg : String)
  | UnexpectedSuccess
  | NoOutput
  | SelectorError (selector : String) (details : String)
  deriving DecidableEq

/-- The result of running a conformance test (`TestResult`). -/
inductive TestResult where
  | Passed
  | Failed (reason : FailureReason)
  | Skipped (reason : SkipReason)
  deriving DecidableEq

/-- The observable output of the spawned external command. -/
structure ProcessOutput where
  exit_code : Int
  stdout : String
  deriving DecidableEq

/-- The outcome of reading `outputs.json` back from disk. -/
inductive ReadFileResult where
  | notFound
  | readError (msg : String)
  | content (text : String)
  deriving DecidableEq

/-- Models `execute_and_evaluate_test`, with all effects of the external
world passed in as outcomes. -/
def execute_and_evaluate_test (fs : String → Bool) (parseJson : String → Option Json)
    (applySelector : String → Json → Except FailureReason Json) (test : Test)
    (redirect_stdout : Bool) (output_selector : Option String)
    (spawn : Except String ProcessOutput) (writeStdout : Except String Unit)
    (readOutputs : ReadFileResult) : TestResult :=
  match spawn with
  | .error e => .Failed (.ExecutionError e)
  | .ok output =>
    let exit_code := output.exit_code
    let writeFailure : Option TestResult :=
      if redirect_stdout then
        match writeStdout with
        | .error e =>
          some (.Failed (.ExecutionError ("failed to write stdout to `outputs.json`: " ++ e)))
        | .ok () => none
      else none
    match writeFailure with
    | some r => r
    | none =>
      let expected_to_fail := test.config.fail
      if expected_to_fail then
        if exit_code = 0 then .Failed .UnexpectedSuccess else .Passed
      else
        let return_code_matches :=
          match test.config.return_code with
          | .Any => true
          | .Single expected => decide (exit_code = expected)
          | .Multiple expected => expected.contains exit_code
        if !return_code_matches then
          .Failed (.ReturnCodeMismatch test.config.return_code exit_code)
        else
          match test.output with
          | none => .Passed
          | some expected_output =>
            match readOutputs with
            | .notFound => .Failed .NoOutput
            | .readError e => .Failed (.OutputMismatch ("failed to read `outputs.json`: " ++ e))
            | .content text =>
              if text.trim.isEmpty then .Failed .NoOutput
              else
                match parseJson text with
                | none => .Failed (.OutputMismatch "failed to parse `outputs.json`")
                | some parsed =>
                  let selected :=
                    match output_selector with
                    | some selector => applySelector selector parsed
                    | none => .ok parsed
                  match selected with
                  | .error reason => .Failed reason
                  | .ok actual =>
                    match validate_outputs fs expected_output actual
                        test.config.exclude_outputs with
                    | .error e => .Failed (.OutputMismatch e)
                    | .ok () => .Passed

/-! ## Structural induction for `Json` -/

/-- Induction over JSON values, with membership hypotheses for the elements
of arrays and the field values of objects. -/
theorem Json.induction {P : Json → Prop} (hnull : P .null) (hbool : ∀ b, P (.bool b))
    (hnum : ∀ q, P (.num q)) (hstr : ∀ s, P (.str s))
    (harr : ∀ items, (∀ j ∈ items, P j) → P (.arr items))
    (hobj : ∀ fields, (∀ kv ∈ fields, P kv.2) → P (.obj fields)) :
    ∀ j, P j
  | .null => hnull
  | .bool b => hbool b
  | .num q => hnum q
  | .str s => hstr s
  | .arr items =>
    harr items (fun j _ => Json.induction hnull hbool hnum hstr harr hobj j)
  | .obj fields =>
    hobj fields (fun kv _ => Json.induction hnull hbool hnum hstr harr hobj kv.2)
termination_by j => sizeOf j
decreasing_by
  · have := List.sizeOf_lt_of_mem (by assumption : j ∈ items)
    simp only [Json.arr.sizeOf_spec]
    omega
  · have h1 := List.sizeOf_lt_of_mem (by assumption : kv ∈ fields)
    obtain ⟨k, v⟩ := kv
    simp only [Json.obj.sizeOf_spec, Prod.mk.sizeOf_spec] at *
    omega

/-! ## Validator lemmas -/

/-- Filtering through an empty exclusion list is the identity. -/
theorem filter_outputs_recursive_nil (v : Json) :
    ∀ p, filter_outputs_recursive v [] p = v := by
  induction v using Json.induction with
  | hnull => intro p; rfl
  | hbool b => intro p; rfl
  | hnum q => intro p; rfl
  | hstr s => intro p; rfl
  | harr items ih =>
    intro p
    have : ∀ is, (∀ j ∈ is, ∀ q, filter_outputs_recursive j [] q = j) →
        filterItems is [] p = is := by
      intro is h
      induction is with
      | nil => rfl
      | cons hd tl iht =>
        simp only [filterItems]
        rw [h hd (by simp), iht (fun j hj => h j (by simp [hj]))]
    simp only [filter_outputs_recursive]
    rw [this items ih]
  | hobj fields ih =>
    intro p
    have : ∀ fs, (∀ kv ∈ fs, ∀ q, filter_outputs_recursive kv.2 [] q = kv.2) →
        filterFields fs [] p = fs := by
      intro fs h
      induction fs with
      | nil => rfl
      | cons hd tl iht =>
        obtain ⟨k, v⟩ := hd
        simp only [filterFields, List.contains_nil, Bool.or_self, if_neg Bool.false_ne_true,
          List.singleton_append]
        rw [h (k, v) (by simp), iht (fun kv hkv => h kv (by simp [hkv]))]
    simp only [filter_outputs_recursive]
    rw [this fields ih]

/-- A key of an entry occurring in an association list is found by `lookup`. -/
theorem lookup_isSome_of_mem (l : List (String × Json)) (kv : String × Json) (h : kv ∈ l) :
    (l.lookup kv.1).isSome := by
  induction l with
  | nil => cases h
  | cons hd tl ih =>
    obtain ⟨k1, v1⟩ := hd
    by_cases hb : kv.1 = k1
    · simp [List.lookup, hb]
    · have htl : kv ∈ tl := by
        rcases List.mem_cons.mp h with heq | htl
        · exact absurd (congrArg Prod.fst heq) hb
        · exact htl
      have hmatch : (kv.1 == k1) = false := by simp [hb]
      simp only [List.lookup, hmatch]
      exact ih htl

/-- In an association list with pairwise-distinct keys, `lookup` returns the
value paired with the key. -/
theorem lookup_eq_of_mem_nodup (l : List (String × Json)) (k : String) (v : Json)
    (hmem : (k, v) ∈ l) (hnd : (l.map Prod.fst).Nodup) : l.lookup k = some v := by
  induction l with
  | nil => cases hmem
  | cons hd tl ih =>
    obtain ⟨k1, v1⟩ := hd
    simp only [List.map_cons, List.nodup_cons] at hnd
    rcases List.mem_cons.mp hmem with heq | htl
    · cases heq
      simp [List.lookup]
    · have hne : k ≠ k1 := by
        intro hkk
        exact hnd.1 (hkk ▸ List.mem_map_of_mem Prod.fst htl)
      have hmatch : (k == k1) = false := by simp [hne]
      simp only [List.lookup, hmatch]
      exact ih htl hnd.2

/-- Every field value of a `fieldsWF` list is well-formed. -/
theorem fieldsWF_mem (fs : List (String × Json)) (h : fieldsWF fs = true) :
    ∀ kv ∈ fs, jsonWF kv.2 = true := by
  induction fs with
  | nil => intro kv hkv; cases hkv
  | cons hd tl ih =>
    obtain ⟨k, v⟩ := hd
    simp only [fieldsWF, Bool.and_eq_true] at h
    intro kv hkv
    rcases List.mem_cons.mp hkv with heq | htl
    · exact heq ▸ h.1
    · exact ih h.2 kv htl

/-- Every element of an `itemsWF` list is well-formed. -/
theorem itemsWF_mem (is : List Json) (h : itemsWF is = true) : ∀ j ∈ is, jsonWF j = true := by
  induction is with
  | nil => intro j hj; cases hj
  | cons hd tl ih =>
    simp only [itemsWF, Bool.and_eq_true] at h
    intro j hj
    rcases List.mem_cons.mp hj with heq | htl
    · exact heq ▸ h.1
    · exact ih h.2 j htl

/-- Positional self-comparison of array elements succeeds. -/
theorem compareItems_refl (fs : String → Bool) (is : List Json)
    (h : ∀ j ∈ is, ∀ p, compare_json fs j j p = .ok ()) :
    ∀ i p, compareItems fs is is i p = .ok () := by
  induction is with
  | nil => intro i p; rfl
  | cons hd tl ih =>
    intro i p
    simp only [compareItems]
    rw [h hd (by simp)]
    exact ih (fun j hj q => h j (by simp [hj]) q) (i + 1) p

/-- Key-wise self-comparison of object entries succeeds when keys are
pairwise distinct and every value compares equal to itself. -/
theorem compareFields_refl (fs : String → Bool) (whole : List (String × Json))
    (hnd : (whole.map Prod.fst).Nodup)
    (hWF : ∀ kv ∈ whole, ∀ p, compare_json fs kv.2 kv.2 p = .ok ()) :
    ∀ sub, (∀ kv ∈ sub, kv ∈ whole) → ∀ p, compareFields fs sub whole p = .ok () := by
  intro sub
  induction sub with
  | nil => intro _ p; rfl
  | cons hd tl ih =>
    intro hmem p
    obtain ⟨k, ev⟩ := hd
    have hw : (k, ev) ∈ whole := hmem (k, ev) (by simp)
    have h1 := hWF (k, ev) hw (joinPath p k)
    simp only at h1
    simp only [compareFields, lookup_eq_of_mem_nodup whole k ev hw hnd, h1]
    exact ih (fun kv hkv => hmem kv (by simp [hkv])) p

/-- Deep self-comparison of a well-formed JSON value succeeds. -/
theorem compare_json_refl (fs : String → Bool) (v : Json) (h : jsonWF v = true) :
    ∀ p, compare_json fs v v p = .ok () := by
  induction v using Json.induction with
  | hnull => intro p; rfl
  | hbool b => intro p; simp [compare_json]
  | hnum q => intro p; simp [compare_json, sub_self, abs_zero, f64Epsilon]
  | hstr s => intro p; simp [compare_json]
  | harr items ih =>
    intro p
    simp only [jsonWF] at h
    simp only [compare_json, ne_eq, not_true_eq_false, if_false]
    exact compareItems_refl fs items (fun j hj => ih j hj (itemsWF_mem items h j hj)) 0 p
  | hobj fields ih =>
    intro p
    simp only [jsonWF, Bool.and_eq_true, decide_eq_true_eq] at h
    have hfind : fields.find? (fun kv => (fields.lookup kv.1).isNone) = none := by
      apply List.find?_eq_none.mpr
      intro kv hkv
      simp [Option.isNone_iff_eq_none, Option.isSome_iff_ne_none.mp
        (lookup_isSome_of_mem fields kv hkv)]
    simp only [compare_json, hfind]
    exact compareFields_refl fs fields h.1
      (fun kv hkv => ih kv hkv (fieldsWF_mem fields h.2 kv hkv)) fields (fun kv hkv => hkv) p

/-- C5: for every well-formed JSON value `v` (served by `serde_json`, hence
with pairwise-distinct object keys), `validate_outputs(v, v, [])` returns
`Match` (`Ok`), for any state of the filesystem consulted by path
normalization. -/
theorem c5_validator_reflexive (fs : String → Bool) (v : Json) (h : jsonWF v = true) :
    validate_outputs fs v v [] = .ok () := by
  unfold validate_outputs filter_outputs
  rw [filter_outputs_recursive_nil v ""]
  exact compare_json_refl fs v h ""

/-- Witness for C5 at a concrete nested value. -/
theorem c5_validator_reflexive_witness :
    jsonWF (.obj [("a", .str "x"), ("b", .arr [.null, .bool true]), ("c", .num 7)]) = true ∧
    validate_outputs (fun _ => false)
      (.obj [("a", .str "x"), ("b", .arr [.null, .bool true]), ("c", .num 7)])
      (.obj [("a", .str "x"), ("b", .arr [.null, .bool true]), ("c", .num 7)]) [] = .ok () :=
  ⟨by rfl, c5_validator_reflexive (fun _ => false) _ (by rfl)⟩

/-- Filtering distributes over list concatenation of object entries. -/
theorem filterFields_append (E : List String) (xs ys : List (String × Json)) (p : String) :
    filterFields (xs ++ ys) E p = filterFields xs E p ++ filterFields ys E p := by
  induction xs with
  | nil => rfl
  | cons hd tl ih =>
    obtain ⟨k, v⟩ := hd
    simp only [List.cons_append, filterFields, List.append_eq, ih, List.append_assoc]

/-- Filtering a JSON value through a fixed exclusion list is idempotent, at
every path. -/
theorem filter_idem_aux (E : List String) (v : Json) :
    ∀ p, filter_outputs_recursive (filter_outputs_recursive v E p) E p =
      filter_outputs_recursive v E p := by
  induction v using Json.induction with
  | hnull => intro p; rfl
  | hbool b => intro p; rfl
  | hnum q => intro p; rfl
  | hstr s => intro p; rfl
  | harr items ih =>
    intro p
    simp only [filter_outputs_recursive]
    have : ∀ is, (∀ j ∈ is, ∀ q,
        filter_outputs_recursive (filter_outputs_recursive j E q) E q =
          filter_outputs_recursive j E q) →
        filterItems (filterItems is E p) E p = filterItems is E p := by
      intro is h
      induction is with
      | nil => rfl
      | cons hd tl iht =>
        simp only [filterItems]
        rw [h hd (by simp) p, iht (fun j hj => h j (by simp [hj]))]
    rw [this items ih]
  | hobj fields ih =>
    intro p
    simp only [filter_outputs_recursive]
    have : ∀ fs, (∀ kv ∈ fs, ∀ q,
        filter_outputs_recursive (filter_outputs_recursive kv.2 E q) E q =
          filter_outputs_recursive kv.2 E q) →
        filterFields (filterFields fs E p) E p = filterFields fs E p := by
      intro fs h
      induction fs with
      | nil => rfl
      | cons hd tl iht =>
        obtain ⟨k, v⟩ := hd
        simp only [filterFields]
        rw [filterFields_append]
        by_cases hc : (E.contains k || E.contains (joinPath p k)) = true
        · simp only [if_pos hc, filterFields, List.nil_append]
          exact iht (fun kv hkv => h kv (by simp [hkv]))
        · have hv := h (k, v) (by simp) (joinPath p k)
          simp only at hv
          simp only [if_neg hc, List.singleton_append, filterFields, if_neg hc, hv,
            List.nil_append]
          rw [iht (fun kv hkv => h kv (by simp [hkv]))]
    rw [this fields ih]

/-- C6: exclusion filtering is idempotent — filtering any JSON value through
any exclusion list twice equals filtering it once. -/
theorem c6_filter_idempotent (v : Json) (E : List String) :
    filter_outputs (filter_outputs v E) E = filter_outputs v E :=
  filter_idem_aux E v ""

/-! ## Resolver lemmas and claims -/

/-- Every run of `infer_and_validate_target` either returns the receiver
untouched or succeeds. -/
theorem infer_and_validate_target_snd (t : Test) :
    (t.infer_and_validate_target).2 = t ∨ (t.infer_and_validate_target).1 = .ok () := by
  rcases hi : t.infer_target_from_input (parse_wdl_declarations t.src) with e | io
  · left
    simp [Test.infer_and_validate_target, hi]
  · rcases io with _ | tg <;>
      rcases hs : (parse_wdl_declarations t.src).single_target with _ | s <;>
      rcases hc : t.config.target with _ | c <;>
      simp [Test.infer_and_validate_target, hi, hs, hc] <;>
      split_ifs <;> simp

/-- C1: a fixture whose source scan finds a workflow `w`, with no input JSON
and no explicit config target, always resolves to `Workflow(w)` — the task
declarations (arbitrary here) never change this outcome. -/
theorem c1_workflow_dominance (t : Test) (w : String)
    (hw : (parse_wdl_declarations t.src).workflow = some w)
    (hin : t.input = none) (hcfg : t.config.target = none) :
    t.infer_and_validate_target = (.ok (), { t with inferred_target := some (.Workflow w) }) := by
  have hst : (parse_wdl_declarations t.src).single_target = some (.Workflow w) := by
    rcases hparse : parse_wdl_declarations t.src with ⟨wf, tasks⟩
    rw [hparse] at hw
    cases hw
    rfl
  have hinf : t.infer_target_from_input (parse_wdl_declarations t.src) = .ok none := by
    simp [Test.infer_target_from_input, hin]
  simp [Test.infer_and_validate_target, hinf, hst, hcfg]

/-- Witness for C1: a source with two tasks and a workflow resolves to the
workflow. -/
theorem c1_workflow_dominance_witness :
    (Test.mk none "w1" "task a \x7b\x7d\ntask b \x7b\x7d\nworkflow w \x7b\x7d\n" none none {}
        none).infer_and_validate_target =
      (.ok (), Test.mk none "w1" "task a \x7b\x7d\ntask b \x7b\x7d\nworkflow w \x7b\x7d\n" none
        none {} (some (.Workflow "w"))) :=
  c1_workflow_dominance _ "w" (by rfl) rfl rfl

/-- C10: whenever target resolution fails, the test is returned unchanged —
in particular `inferred_target` is exactly what it was before the call. -/
theorem c10_resolution_atomic (t : Test) (e : String)
    (h : (t.infer_and_validate_target).1 = .error e) :
    (t.infer_and_validate_target).2 = t ∧
    (t.infer_and_validate_target).2.inferred_target = t.inferred_target := by
  rcases infer_and_validate_target_snd t with heq | heq
  · exact ⟨heq, by rw [heq]⟩
  · rw [heq] at h
    cases h

/-- Witness for C10: a source with no declarations fails resolution and
leaves the test unchanged. -/
theorem c10_resolution_atomic_witness :
    ((Test.mk none "t10" "version 1.2\n" none none {} none).infer_and_validate_target).1 =
      .error (msgNoDecl "t10") ∧
    ((Test.mk none "t10" "version 1.2\n" none none {} none).infer_and_validate_target).2 =
      Test.mk none "t10" "version 1.2\n" none none {} none :=
  ⟨by rfl, (c10_resolution_atomic _ (msgNoDecl "t10") (by rfl)).1⟩

/-- C2 (amended): for a fixture with no workflow whose input is a JSON
object with at least one key, the distinct first-dot key heads determine the
result — a single head in the task list resolves to that task *when no
explicit config target is set*; two or more heads fail with the
ambiguous-input-prefixes error; a single head matching no declaration fails
with the error naming that head. -/
theorem c2_input_inference_amended (t : Test) (fields : List (String × Json))
    (hw : (parse_wdl_declarations t.src).workflow = none)
    (hin : t.input = some (.obj fields)) (hne : fields ≠ []) :
    (∀ p, (fields.map (fun kv => firstDotSegment kv.1)).dedup = [p] →
      p ∈ (parse_wdl_declarations t.src).tasks → t.config.target = none →
      t.infer_and_validate_target = (.ok (), { t with inferred_target := some (.Task p) })) ∧
    (2 ≤ (fields.map (fun kv => firstDotSegment kv.1)).dedup.length →
      t.infer_and_validate_target = (.error (msgAmbiguous t.file_name), t)) ∧
    (∀ p, (fields.map (fun kv => firstDotSegment kv.1)).dedup = [p] →
      p ∉ (parse_wdl_declarations t.src).tasks →
      t.infer_and_validate_target = (.error (msgNoMatch p t.file_name), t)) := by
  rcases hfs : fields with _ | ⟨f0, frest⟩
  · exact absurd hfs hne
  subst hfs
  refine ⟨?_, ?_, ?_⟩
  · intro p hdp hmem hcfg
    have hdp2 : (firstDotSegment f0.1 ::
        frest.map (fun kv => firstDotSegment kv.1)).dedup = [p] := by simpa using hdp
    have hinf : t.infer_target_from_input (parse_wdl_declarations t.src) =
        .ok (some (.Task p)) := by
      simp [Test.infer_target_from_input, hin, Json.asObject, hdp2, hw, hmem]
    rcases hparse : parse_wdl_declarations t.src with ⟨wf, tasks⟩
    rw [hparse] at hw hmem hinf
    simp only at hw
    subst hw
    rcases tasks with _ | ⟨a, _ | ⟨b, rest⟩⟩
    · simp at hmem
    · have hpa : p = a := by simpa using hmem
      subst hpa
      simp [Test.infer_and_validate_target, hparse, hinf, hcfg, WdlDeclarations.single_target]
    · simp [Test.infer_and_validate_target, hparse, hinf, hcfg, WdlDeclarations.single_target]
  · intro hlen
    rcases hd : (((f0 :: frest).map (fun kv => firstDotSegment kv.1)).dedup) with
      _ | ⟨x, _ | ⟨y, zs⟩⟩
    · rw [hd] at hlen; simp at hlen
    · rw [hd] at hlen; simp at hlen
    · have hd2 : (firstDotSegment f0.1 ::
          frest.map (fun kv => firstDotSegment kv.1)).dedup = x :: y :: zs := by
        simpa using hd
      have hinf : t.infer_target_from_input (parse_wdl_declarations t.src) =
          .error (msgAmbiguous t.file_name) := by
        simp [Test.infer_target_from_input, hin, Json.asObject, hd2]
      simp [Test.infer_and_validate_target, hinf]
  · intro p hdp hmem
    have hdp2 : (firstDotSegment f0.1 ::
        frest.map (fun kv => firstDotSegment kv.1)).dedup = [p] := by simpa using hdp
    have hinf : t.infer_target_from_input (parse_wdl_declarations t.src) =
        .error (msgNoMatch p t.file_name) := by
      simp [Test.infer_target_from_input, hin, Json.asObject, hdp2, hw, hmem]
    simp [Test.infer_and_validate_target, hinf]

/-- Counterexample to C2 as stated: a fixture with no workflow, a single
task `t`, input keys all headed by `t` — but with an explicit config target:
resolution fails with a conflict error instead of yielding `Task(t)`. -/
theorem c2_counterexample :
    parse_wdl_declarations
        (Test.mk none "t2" "task t \x7b\x7d\n" (some (.obj [("t.x", .null)])) none
          { target := some "t" } none).src = ⟨none, ["t"]⟩ ∧
    (Test.mk none "t2" "task t \x7b\x7d\n" (some (.obj [("t.x", .null)])) none
        { target := some "t" } none).infer_and_validate_target =
      (.error (msgConflictWdl "t2"),
        Test.mk none "t2" "task t \x7b\x7d\n" (some (.obj [("t.x", .null)])) none
          { target := some "t" } none) :=
  ⟨by rfl, by rfl⟩

/-- Witness for the amended C2 at a concrete fixture without a config
target. -/
theorem c2_input_inference_amended_witness :
    (Test.mk none "t2w" "task t \x7b\x7d\n" (some (.obj [("t.x", .null), ("t.y", .null)])) none
        {} none).infer_and_validate_target =
      (.ok (), Test.mk none "t2w" "task t \x7b\x7d\n"
        (some (.obj [("t.x", .null), ("t.y", .null)])) none {} (some (.Task "t"))) :=
  (c2_input_inference_amended _ [("t.x", .null), ("t.y", .null)] (by rfl) rfl (by simp)).1
    "t" (by rfl) (by decide) rfl

/-- C3 (amended): an explicit config target combined with an available
structural or input-inferred target always makes resolution fail with the
test unchanged; the failure carries one of the two conflict diagnostics
whenever the input-prefix step itself succeeded (otherwise that step's own
error is what is reported). -/
theorem c3_explicit_conflict_amended (t : Test) (c : String)
    (hcfg : t.config.target = some c)
    (hposs : (parse_wdl_declarations t.src).single_target.isSome ∨
      ∃ tg, t.infer_target_from_input (parse_wdl_declarations t.src) = .ok (some tg)) :
    (∃ e, t.infer_and_validate_target = (.error e, t)) ∧
    (∀ r, t.infer_target_from_input (parse_wdl_declarations t.src) = .ok r →
      t.infer_and_validate_target = (.error (msgConflictWdl t.file_name), t) ∨
      t.infer_and_validate_target = (.error (msgConflictInput t.file_name), t)) := by
  rcases hi : t.infer_target_from_input (parse_wdl_declarations t.src) with e | io
  · refine ⟨⟨e, by simp [Test.infer_and_validate_target, hi]⟩, ?_⟩
    intro r hr
    cases hr
  · rcases hs : (parse_wdl_declarations t.src).single_target with _ | s
    · have hio : ∃ tg, io = some tg := by
        rcases hposs with hl | ⟨tg, htg⟩
        · rw [hs] at hl; cases hl
        · rw [hi] at htg
          exact ⟨tg, Except.ok.inj htg⟩
      obtain ⟨tg, htg⟩ := hio
      subst htg
      have : t.infer_and_validate_target = (.error (msgConflictInput t.file_name), t) := by
        simp [Test.infer_and_validate_target, hi, hs, hcfg]
      exact ⟨⟨msgConflictInput t.file_name, this⟩, fun r _ => .inr this⟩
    · have : t.infer_and_validate_target = (.error (msgConflictWdl t.file_name), t) := by
        simp [Test.infer_and_validate_target, hi, hs, hcfg]
      exact ⟨⟨msgConflictWdl t.file_name, this⟩, fun r _ => .inl this⟩

/-- Counterexample to C3 as stated: workflow present (structural target
available) and explicit config target set, but the input keys have two
distinct heads — resolution fails with the ambiguous-input-prefixes error,
not a conflict error. -/
theorem c3_counterexample :
    (Test.mk none "t3" "workflow w \x7b\x7d\n" (some (.obj [("a.x", .null), ("b.y", .null)]))
        none { target := some "c" } none).infer_and_validate_target =
      (.error (msgAmbiguous "t3"),
        Test.mk none "t3" "workflow w \x7b\x7d\n" (some (.obj [("a.x", .null), ("b.y", .null)]))
          none { target := some "c" } none) ∧
    msgAmbiguous "t3" ≠ msgConflictWdl "t3" ∧ msgAmbiguous "t3" ≠ msgConflictInput "t3" :=
  ⟨by rfl, by decide, by decide⟩

/-- Witness for the amended C3 at a concrete fixture. -/
theorem c3_explicit_conflict_amended_witness :
    ∃ e, (Test.mk none "t3w" "workflow w \x7b\x7d\n" none none { target := some "c" }
        none).infer_and_validate_target =
      (.error e, Test.mk none "t3w" "workflow w \x7b\x7d\n" none none { target := some "c" }
        none) :=
  (c3_explicit_conflict_amended _ "c" rfl (.inl (by rfl))).1

/-- C4: with no workflow, at least two tasks and no usable input JSON —
without an explicit config target resolution fails with the target-required
error; with one, it yields `Task(target)` exactly when the target is a
declared task and otherwise fails with the error naming it. -/
theorem c4_no_inference_row (t : Test)
    (hw : (parse_wdl_declarations t.src).workflow = none)
    (hlen : 2 ≤ (parse_wdl_declarations t.src).tasks.length)
    (hinf : t.infer_target_from_input (parse_wdl_declarations t.src) = .ok none) :
    (t.config.target = none →
      t.infer_and_validate_target = (.error (msgTargetRequired t.file_name), t)) ∧
    (∀ c, t.config.target = some c →
      (c ∈ (parse_wdl_declarations t.src).tasks →
        t.infer_and_validate_target = (.ok (), { t with inferred_target := some (.Task c) })) ∧
      (c ∉ (parse_wdl_declarations t.src).tasks →
        t.infer_and_validate_target = (.error (msgNotFound c t.file_name), t))) := by
  rcases hparse : parse_wdl_declarations t.src with ⟨wf, tasks⟩
  rw [hparse] at hw hlen hinf
  simp only at hw
  subst hw
  rcases tasks with _ | ⟨a, _ | ⟨b, rest⟩⟩
  · simp at hlen
  · simp at hlen
  refine ⟨?_, ?_⟩
  · intro hcfg
    simp [Test.infer_and_validate_target, hparse, hinf, hcfg, WdlDeclarations.single_target]
  · intro c hcfg
    constructor
    · intro hmem
      have hmem2 : c ∈ a :: b :: rest := hmem
      simp [Test.infer_and_validate_target, hparse, hinf, hcfg,
        WdlDeclarations.single_target, hmem2]
    · intro hmem
      have hmem2 : c ∉ a :: b :: rest := hmem
      simp [Test.infer_and_validate_target, hparse, hinf, hcfg,
        WdlDeclarations.single_target, hmem2]

/-- Witness for C4: two tasks, no input, explicit target `b` resolves to
`Task(b)`. -/
theorem c4_no_inference_row_witness :
    (Test.mk none "t4" "task a \x7b\x7d\ntask b \x7b\x7d\n" none none { target := some "b" }
        none).infer_and_validate_target =
      (.ok (), Test.mk none "t4" "task a \x7b\x7d\ntask b \x7b\x7d\n" none none
        { target := some "b" } (some (.Task "b"))) :=
  ((c4_no_inference_row _ (by rfl) (by decide) (by rfl)).2 "b" rfl).1 (by decide)

/-! ## Execution-driver claims -/

/-- C7: when the config sets `fail: true` and the command was spawned (and
any stdout redirection wrote cleanly), the result depends only on the exit
code: nonzero passes, zero fails with `UnexpectedSuccess` — the expected
output, return-code spec, selector and outputs file are all quantified over
and never consulted. -/
theorem c7_expected_failure_mode (fs : String → Bool) (parseJson : String → Option Json)
    (applySelector : String → Json → Except FailureReason Json) (test : Test)
    (redirect_stdout : Bool) (output_selector : Option String) (out : ProcessOutput)
    (readOutputs : ReadFileResult) (hfail : test.config.fail = true) :
    execute_and_evaluate_test fs parseJson applySelector test redirect_stdout output_selector
      (.ok out) (.ok ()) readOutputs =
      if out.exit_code = 0 then .Failed .UnexpectedSuccess else .Passed := by
  cases redirect_stdout <;> simp [execute_and_evaluate_test, hfail]

/-- Witness for C7: a fail-marked test passes on exit code 1 and fails with
`UnexpectedSuccess` on exit code 0. -/
theorem c7_expected_failure_mode_witness :
    execute_and_evaluate_test (fun _ => false) (fun _ => none) (fun _ j => .ok j)
      (Test.mk none "t7" "task a \x7b\x7d\n" none (some .null) { fail := true } none) false none
      (.ok ⟨1, ""⟩) (.ok ()) .notFound = .Passed ∧
    execute_and_evaluate_test (fun _ => false) (fun _ => none) (fun _ j => .ok j)
      (Test.mk none "t7" "task a \x7b\x7d\n" none (some .null) { fail := true } none) false none
      (.ok ⟨0, ""⟩) (.ok ()) .notFound = .Failed .UnexpectedSuccess := by
  constructor
  · rw [c7_expected_failure_mode (fun _ => false) (fun _ => none) (fun _ j => .ok j) _ false none
      ⟨1, ""⟩ .notFound rfl]
    norm_num
  · rw [c7_expected_failure_mode (fun _ => false) (fun _ => none) (fun _ j => .ok j) _ false none
      ⟨0, ""⟩ .notFound rfl]
    norm_num

/-! ## Extraction claims -/

/-- Capture sets emitted by `endDetails` always carry the name and source
groups. -/
theorem endDetails_g12 (g1 g2 : String) (g3 g4 g5 : Option String) (s : List Char)
    (r : RawTest) (rest : List Char) (h : endDetails g1 g2 g3 g4 g5 s = some (r, rest)) :
    (r.g1).isSome = true ∧ (r.g2).isSome = true := by
  unfold endDetails at h
  cases hd : dropLitCI "</details>".data s with
  | none => rw [hd] at h; cases h
  | some s2 =>
    rw [hd] at h
    cases h
    exact ⟨rfl, rfl⟩

/-- The lazy-capture search preserves any property its continuation
guarantees of the produced capture set. -/
theorem lazyStar_g12 (k : String → List Char → Option (RawTest × List Char))
    (hk : ∀ cap s2 r rest, k cap s2 = some (r, rest) →
      (r.g1).isSome = true ∧ (r.g2).isSome = true) :
    ∀ s acc r rest, lazyStar k acc s = some (r, rest) →
      (r.g1).isSome = true ∧ (r.g2).isSome = true := by
  intro s
  induction s with
  | nil =>
    intro acc r rest h
    exact hk _ _ _ _ h
  | cons c s2 ih =>
    intro acc r rest h
    unfold lazyStar at h
    cases hkk : k acc.reverse.asString (c :: s2) with
    | none =>
      rw [hkk] at h
      exact ih (c :: acc) r rest h
    | some rr => rw [hkk] at h; cases h; exact hk _ _ _ _ hkk

/-- The `(.+?)` variant of the preservation lemma. -/
theorem lazyPlus_g12 (k : String → List Char → Option (RawTest × List Char))
    (hk : ∀ cap s2 r rest, k cap s2 = some (r, rest) →
      (r.g1).isSome = true ∧ (r.g2).isSome = true)
    (s : List Char) (r : RawTest) (rest : List Char) (h : lazyPlus k s = some (r, rest)) :
    (r.g1).isSome = true ∧ (r.g2).isSome = true := by
  unfold lazyPlus at h
  cases s with
  | nil => cases h
  | cons c s2 => exact lazyStar_g12 k hk s2 [c] r rest h

/-- `optGroup` preserves any property of its continuation. -/
theorem optGroup_g12 (label : List Char) (s : List Char)
    (k : Option String → List Char → Option (RawTest × List Char))
    (hk : ∀ g s2 r rest, k g s2 = some (r, rest) →
      (r.g1).isSome = true ∧ (r.g2).isSome = true)
    (r : RawTest) (rest : List Char) (h : optGroup label s k = some (r, rest)) :
    (r.g1).isSome = true ∧ (r.g2).isSome = true := by
  have hinner : ∀ cap s3 r2 rest2,
      (match dropLitCI "```".data s3 with
       | some s4 => k (some cap) (s4.dropWhile isRustSpace)
       | none => none) = some (r2, rest2) →
      (r2.g1).isSome = true ∧ (r2.g2).isSome = true := by
    intro cap s3 r2 rest2 h2
    cases hd : dropLitCI "```".data s3 with
    | none => rw [hd] at h2; cases h2
    | some s4 => rw [hd] at h2; exact hk _ _ _ _ h2
  cases hl : dropLitCI label s with
  | none =>
    simp only [optGroup, hl] at h
    exact hk _ _ _ _ h
  | some s1 =>
    cases hj : dropLitCI "```json".data (s1.dropWhile isRustSpace) with
    | none =>
      simp only [optGroup, hl, hj] at h
      exact hk _ _ _ _ h
    | some s2 =>
      cases hz : lazyStar (fun cap s3 =>
          match dropLitCI "```".data s3 with
          | some s4 => k (some cap) (s4.dropWhile isRustSpace)
          | none => none) [] s2 with
      | none =>
        simp only [optGroup, hl, hj, hz] at h
        exact hk _ _ _ _ h
      | some rr =>
        simp only [optGroup, hl, hj, hz] at h
        cases h
        exact lazyStar_g12 _ hinner s2 [] r rest hz

/-- The whole `<p>` block preserves the name/source invariant. -/
theorem pBlock_g12 (g1 g2 : String) (s : List Char) (r : RawTest) (rest : List Char)
    (h : pBlock g1 g2 s = some (r, rest)) :
    (r.g1).isSome = true ∧ (r.g2).isSome = true := by
  unfold pBlock at h
  cases hp : dropLitCI "<p>".data s with
  | none => rw [hp] at h; cases h
  | some s1 =>
    rw [hp] at h
    refine optGroup_g12 _ _ _ ?_ r rest h
    intro g3 s2 r2 rest2 h2
    refine optGroup_g12 _ _ _ ?_ r2 rest2 h2
    intro g4 s3 r3 rest3 h3
    refine optGroup_g12 _ _ _ ?_ r3 rest3 h3
    intro g5 s4 r4 rest4 h4
    cases hq : dropLitCI "</p>".data s4 with
    | none => rw [hq] at h4; cases h4
    | some s5 =>
      rw [hq] at h4
      exact endDetails_g12 g1 g2 g3 g4 g5 _ r4 rest4 h4

/-- Every capture set produced by a full pattern match carries the name and
source groups. -/
theorem matchAt_g12 (s : List Char) (r : RawTest) (rest : List Char)
    (h : matchAt s = some (r, rest)) :
    (r.g1).isSome = true ∧ (r.g2).isSome = true := by
  cases h1 : dropLitCI "<details>".data s with
  | none => simp only [matchAt, h1] at h; cases h
  | some s1 =>
    cases h2 : dropLitCI "<summary>".data (s1.dropWhile isRustSpace) with
    | none => simp only [matchAt, h1, h2] at h; cases h
    | some s2 =>
      cases h3 : dropLitCI "Example: ".data (s2.dropWhile isRustSpace) with
      | none => simp only [matchAt, h1, h2, h3] at h; cases h
      | some s3 =>
        simp only [matchAt, h1, h2, h3] at h
        refine lazyPlus_g12 _ ?_ s3 r rest h
        intro g1 s4 r2 rest2 h4
        cases h5 : dropLitCI "```wdl".data (s4.dropWhile isRustSpace) with
        | none => simp only [h5] at h4; cases h4
        | some s5 =>
          simp only [h5] at h4
          refine lazyPlus_g12 _ ?_ s5 r2 rest2 h4
          intro g2 s6 r3 rest3 h6
          cases h7 : dropLitCI "```".data s6 with
          | none => simp only [h7] at h6; cases h6
          | some s7 =>
            simp only [h7] at h6
            cases h8 : dropLitCI "</summary>".data (s7.dropWhile isRustSpace) with
            | none => simp only [h8] at h6; cases h6
            | some s8 =>
              simp only [h8] at h6
              unfold afterSummary at h6
              cases h9 : pBlock g1 g2 (s8.dropWhile isRustSpace) with
              | none =>
                rw [h9] at h6
                exact endDetails_g12 g1 g2 none none none _ r3 rest3 h6
              | some rr =>
                rw [h9] at h6
                cases h6
                exact pBlock_g12 g1 g2 _ r3 rest3 h9

/-- Every capture set collected by the scan carries the name and source
groups. -/
theorem scanIter_g12 : ∀ (s : List Char) (skip : Nat) (r : RawTest), r ∈ scanIter s skip →
    (r.g1).isSome = true ∧ (r.g2).isSome = true := by
  intro s
  induction s with
  | nil => intro skip r h; cases h
  | cons c rest ih =>
    intro skip r h
    unfold scanIter at h
    cases skip with
    | succ n => exact ih n r h
    | zero =>
      cases hm : matchAt (c :: rest) with
      | none =>
        rw [hm] at h
        exact ih 0 r h
      | some rr =>
        rw [hm] at h
        rcases List.mem_cons.mp h with heq | htl
        · exact heq ▸ matchAt_g12 (c :: rest) rr.1 rr.2 (by rw [hm])
        · exact ih _ r htl

/-- C8 (amended): a fixture region missing its name label or source fence is
simply not matched by the extraction regex — extraction succeeds and yields
no fixture for it (see the counterexample) — while every region that *is*
matched always carries both required groups, so the malformed-fixture
failure path of `required_string` can never be taken. -/
theorem c8_extraction_amended (contents : String) (caps : RawTest)
    (h : caps ∈ extractTests contents) :
    (∃ n, caps.g1 = some n ∧ required_string caps.g1 "filename" = .ok n) ∧
    (∃ src, caps.g2 = some src ∧ required_string caps.g2 "source" = .ok src) := by
  obtain ⟨h1, h2⟩ := scanIter_g12 contents.data 0 caps h
  obtain ⟨n, hn⟩ := Option.isSome_iff_exists.mp h1
  obtain ⟨src, hsrc⟩ := Option.isSome_iff_exists.mp h2
  exact ⟨⟨n, hn, by simp [required_string, hn]⟩, ⟨src, hsrc, by simp [required_string, hsrc]⟩⟩

/-- Counterexample to C8 as stated: markdown holding a fixture region whose
source body (the wdl fence) is missing is not matched at all, and
compilation *succeeds* with no fixtures instead of failing with a
malformed-fixture error. -/
theorem c8_counterexample :
    extractTests "<details><summary>Example: foo.wdl</summary></details>" = [] ∧
    Tests.compile (fun _ => none) (fun _ => .error "er")
      "<details><summary>Example: foo.wdl</summary></details>" = .ok [] :=
  ⟨by rfl, by rfl⟩

/-- Witness for the amended C8 on a concrete well-formed block. -/
theorem c8_extraction_amended_witness :
    (∃ n, (RawTest.mk (some "a") (some " x") none none none).g1 = some n ∧
      required_string (RawTest.mk (some "a") (some " x") none none none).g1 "filename" =
        .ok n) ∧
    (∃ src, (RawTest.mk (some "a") (some " x") none none none).g2 = some src ∧
      required_string (RawTest.mk (some "a") (some " x") none none none).g2 "source" =
        .ok src) := by
  have hm : RawTest.mk (some "a") (some " x") none none none ∈
      extractTests "<details><summary>Example: a```wdl x```</summary></details>" := by
    rw [show extractTests "<details><summary>Example: a```wdl x```</summary></details>" =
      [RawTest.mk (some "a") (some " x") none none none] from rfl]
    exact List.mem_singleton.mpr rfl
  exact c8_extraction_amended _ _ hm

/-- C9: for a markdown document whose scan yields one test block, a
non-parsing `Example input:` (or `Example output:`) JSON body is silently
dropped — compilation succeeds (config permitting) with the corresponding
field `none` — whereas a non-parsing `Test config:` body aborts compilation
with the configuration-parsing error. -/
theorem c9_json_silent_config_aborts (contents : String) (parseJson : String → Option Json)
    (parseConfig : String → Except String Config) (caps : RawTest)
    (hscan : extractTests contents = [caps]) :
    ((∀ s5, caps.g5 = some s5 → ∃ c, parseConfig s5 = .ok c) →
      ∃ t, Tests.compile parseJson parseConfig contents = .ok [t] ∧
        ((∀ s3, caps.g3 = some s3 → parseJson s3 = none) → t.input = none) ∧
        ((∀ s4, caps.g4 = some s4 → parseJson s4 = none) → t.output = none)) ∧
    (∀ s5 e, caps.g5 = some s5 → parseConfig s5 = .error e →
      Tests.compile parseJson parseConfig contents =
        .error ("parsing configuration: " ++ e)) := by
  have hmem : caps ∈ extractTests contents := by
    rw [hscan]
    exact List.mem_singleton.mpr rfl
  obtain ⟨hg1, hg2⟩ := scanIter_g12 contents.data 0 caps hmem
  obtain ⟨n, hn⟩ := Option.isSome_iff_exists.mp hg1
  obtain ⟨src, hsrc⟩ := Option.isSome_iff_exists.mp hg2
  constructor
  · intro hcfg
    have hco : ∃ cfg, optional_config_group parseConfig caps.g5 = .ok cfg := by
      cases hg5 : caps.g5 with
      | none => exact ⟨none, by simp [optional_config_group]⟩
      | some s5 =>
        obtain ⟨c, hc⟩ := hcfg s5 hg5
        exact ⟨some c, by simp [optional_config_group, hc]⟩
    obtain ⟨cfg, hcfgok⟩ := hco
    refine ⟨⟨none, n, src, optional_json_group parseJson caps.g3,
      optional_json_group parseJson caps.g4, cfg.getD {}, none⟩, ?_, ?_, ?_⟩
    · simp [Tests.compile, hscan, build_conformance_test, required_string, hn, hsrc, hcfgok,
        List.mapM.loop, Bind.bind, Except.bind, Pure.pure, Except.pure]
    · intro hJ3
      cases hg3 : caps.g3 with
      | none => simp [optional_json_group, hg3]
      | some s3 => simp [optional_json_group, hg3, hJ3 s3 hg3]
    · intro hJ4
      cases hg4 : caps.g4 with
      | none => simp [optional_json_group, hg4]
      | some s4 => simp [optional_json_group, hg4, hJ4 s4 hg4]
  · intro s5 e hg5 he
    simp [Tests.compile, hscan, build_conformance_test, required_string, hn, hsrc,
      optional_config_group, hg5, he, List.mapM.loop, Bind.bind, Except.bind, Pure.pure, Except.pure]

/-- Witness for C9 at a concrete block with a malformed input body and no
config block: compilation succeeds and the input is dropped to `none`. -/
theorem c9_json_silent_config_aborts_witness :
    ∃ t, Tests.compile (fun _ => none) (fun _ => .error "e")
        "<details><summary>Example: a```wdl x```</summary><p>Example input:```json notjson```</p></details>" =
      .ok [t] ∧ t.input = none := by
  obtain ⟨t, h1, h2, h3⟩ :=
    (c9_json_silent_config_aborts
      "<details><summary>Example: a```wdl x```</summary><p>Example input:```json notjson```</p></details>"
      (fun _ => none) (fun _ => .error "e")
      (RawTest.mk (some "a") (some " x") (some " notjson") none none) (by rfl)).1
      (fun s5 h => by cases h)
  exact ⟨t, h1, h2 (fun s3 _ => rfl)⟩

end Spectool
